import Mathlib

/-!
Shallow embedding of the HandshakeToFIRRTL lowering pass
(`lib/Conversion/HandshakeToFIRRTL/HandshakeToFIRRTL.cpp`).

The pass translates Handshake dataflow operations into FIRRTL modules.
We model the FIRRTL expressions and statements the builders emit as
syntax trees, and each `build*Logic` function as a Lean function from
its (abstracted) inputs to the list of emitted statements.  Ports of a
sub-module are numbered positionally; `Exp.portField p f` denotes the
`SubfieldOp` extracting field `f` of port `p`.
-/

set_option autoImplicit false

namespace HandshakeToFIRRTL

/-- Subfields of a handshaked bundle: `valid`, `ready`, and the optional
`data` payload. -/
inductive Field where
  | valid
  | ready
  | data
  deriving DecidableEq, Repr

/-- FIRRTL primitive operators used by the lowering (the binary builders
are instantiated at these: `AddPrimOp`, `SubPrimOp`, `MulPrimOp`,
`AndPrimOp`, `OrPrimOp`, `XorPrimOp`, the comparison primitives, and the
dynamic shifts). -/
inductive PrimOp where
  | add
  | sub
  | mul
  | andOp
  | orOp
  | xorOp
  | eqOp
  | neqOp
  | ltOp
  | leqOp
  | gtOp
  | geqOp
  | dshl
  | dshr
  deriving DecidableEq, Repr

/-- Identity of a `WireOp` created by the pipeline builder.  The
builders connect the *SSA value* of the created wire, so wires are
identified by which creation they come from; the FIRRTL name attribute
each one carries is given by `WireId.fName`. -/
inductive WireId where
  | validIn
  | readyIn
  | readyW (stage : Nat)
  deriving DecidableEq, Repr

/-- The FIRRTL name attribute of a wire. -/
def WireId.fName : WireId → String
  | WireId.validIn => "valid_in"
  | WireId.readyIn => "ready_in"
  | WireId.readyW s => "ready" ++ toString s

/-- Identity of a register created by the pipeline builder: a stage's
valid register (`RegInitOp`) or a data register (`RegOp`, identified by
its name attribute). -/
inductive RegId where
  | validReg (stage : Nat)
  | dataReg (name : String)
  deriving DecidableEq, Repr

/-- The FIRRTL name attribute of a register. -/
def RegId.fName : RegId → String
  | RegId.validReg s => "valid" ++ toString s
  | RegId.dataReg n => n

/-- FIRRTL expressions as the builders create them.  `portField p f` is
the subfield `f` of module port `p`; `portRef p` is a non-bundle port
(clock or reset) passed through whole; `wire`/`reg` refer to the
results of created `WireOp`/`RegInitOp`/`RegOp`s; `const w v` is a
`ConstantOp` of width `w` and value `v`; `prim`/`notE` are primitive
operations. -/
inductive Exp where
  | portField (port : Nat) (f : Field)
  | portRef (port : Nat)
  | wire (w : WireId)
  | reg (r : RegId)
  | const (width : Nat) (val : Nat)
  | prim (op : PrimOp) (a b : Exp)
  | notE (a : Exp)
  deriving DecidableEq, Repr

/-- FIRRTL statements emitted by the builders: `ConnectOp` and `WhenOp`
(with then- and else-region bodies). -/
inductive Stmt where
  | connect (dst src : Exp)
  | when (cond : Exp) (thenB elseB : List Stmt)
  deriving Repr

mutual

/-- All `(dst, src)` pairs of `ConnectOp`s inside a statement, nested
when-regions included. -/
def stmtConnects : Stmt → List (Exp × Exp)
  | Stmt.connect d s => [(d, s)]
  | Stmt.when _ t e => stmtsConnects t ++ stmtsConnects e

def stmtsConnects : List Stmt → List (Exp × Exp)
  | [] => []
  | s :: rest => stmtConnects s ++ stmtsConnects rest

end

/-! ## Binary logic builder (`buildBinaryLogic`, lines 321-353)

Port layout: port 0 and 1 are the operand channels, port 2 the result
channel.  The C++ is a template over the FIRRTL primitive `OpType`; we
take the primitive as a parameter. -/

/-- Statements emitted by `buildBinaryLogic<OpType>`: connect
`result.data` from `op(a.data, b.data)`, `result.valid` from
`a.valid AND b.valid`, and both operand readies from the single
expression `result.ready AND result.valid`. -/
def buildBinaryLogic (op : PrimOp) : List Stmt :=
  let arg0Valid := Exp.portField 0 Field.valid
  let arg0Ready := Exp.portField 0 Field.ready
  let arg0Data := Exp.portField 0 Field.data
  let arg1Valid := Exp.portField 1 Field.valid
  let arg1Ready := Exp.portField 1 Field.ready
  let arg1Data := Exp.portField 1 Field.data
  let resultValid := Exp.portField 2 Field.valid
  let resultReady := Exp.portField 2 Field.ready
  let resultData := Exp.portField 2 Field.data
  let resultDataOp := Exp.prim op arg0Data arg1Data
  let resultValidOp := Exp.prim PrimOp.andOp arg0Valid arg1Valid
  let argReadyOp := Exp.prim PrimOp.andOp resultReady resultValidOp
  [ Stmt.connect resultData resultDataOp,
    Stmt.connect resultValid resultValidOp,
    Stmt.connect arg0Ready argReadyOp,
    Stmt.connect arg1Ready argReadyOp ]

/-! ## Type mapping (`getBundleType`, lines 63-96)

Source-level (MLIR standard) types and their mapping to FIRRTL bundle
port types.  `Ty.other` stands for any type outside the
integer/index/none switch (the `default:` case returning a null
`FIRRTLType`). -/

/-- FIRRTL ground data types produced by the mapping. -/
inductive FTy where
  | sintTy (width : Nat)
  | uintTy (width : Nat)
  deriving DecidableEq, Repr

/-- A module port type: a handshaked bundle (with optional data field),
a clock, or the single-bit reset. -/
inductive PortTy where
  | bundle (isFlip : Bool) (dataTy : Option FTy)
  | clock
  | resetTy
  deriving DecidableEq, Repr

/-- Source types reaching `getBundleType`.  `noneTy` is the MLIR `none`
type (control-only channel); `other` is any unsupported type. -/
inductive Ty where
  | signed (width : Nat)
  | unsigned (width : Nat)
  | signless (width : Nat)
  | index
  | noneTy
  | other (name : String)
  deriving DecidableEq, Repr

/-- `IndexType::kInternalStorageBitWidth`: index is considered a 64-bit
unsigned integer. -/
def kInternalStorageBitWidth : Nat := 64

/-- `getBundleType`: map a standard type to a handshaked bundle type,
or `none` for the `default:` case (a null `FIRRTLType`). -/
def getBundleType (t : Ty) (isFlip : Bool) : Option PortTy :=
  match t with
  | Ty.signed w => some (PortTy.bundle isFlip (some (FTy.sintTy w)))
  | Ty.unsigned w => some (PortTy.bundle isFlip (some (FTy.uintTy w)))
  | Ty.signless w => some (PortTy.bundle isFlip (some (FTy.uintTy w)))
  | Ty.index =>
      some (PortTy.bundle isFlip (some (FTy.uintTy kInternalStorageBitWidth)))
  | Ty.noneTy => some (PortTy.bundle isFlip Option.none)
  | Ty.other _ => Option.none

/-- The diagnostic message emitted when `getBundleType` returns null. -/
def unsupportedTypeDiag : String :=
  "Unsupported data type. Supported data types: integer " ++
  "(signed, unsigned, signless), index, none."

/-! ## Top-module ports (`createTopModuleOp`, lines 145-222) and
sub-module ports (`createSubModuleOp`, lines 243-288)

Both builders push a port named `arg{idx}` for every operand/result
type; when `getBundleType` fails they emit the diagnostic *and still
push the (null) port type*, continuing with the loop.  Ports are pairs
of a name and an optional port type (`none` = the null `FIRRTLType`
that was pushed). -/

/-- One port: name and (possibly null) type. -/
abbrev Port := String × Option PortTy

/-- Ports for a list of source types, with running `args_idx` starting
at `startIdx`; also returns the diagnostics emitted for unsupported
types, in order. -/
def portsOfTypes : List Ty → Bool → Nat → List Port × List String
  | [], _, _ => ([], [])
  | t :: rest, isFlip, idx =>
      let bundlePortType := getBundleType t isFlip
      let diags := if bundlePortType.isSome then [] else [unsupportedTypeDiag]
      let (ports, restDiags) := portsOfTypes rest isFlip (idx + 1)
      (("arg" ++ toString idx, bundlePortType) :: ports, diags ++ restDiags)

/-- Clock/reset ports of the top module: `clock`/`reset` when
`numClocks == 1`, `clock{i}`/`reset{i}` when `numClocks > 1`, nothing
otherwise. -/
def clockResetPorts (numClocks : Nat) : List Port :=
  if numClocks = 1 then
    [("clock", some PortTy.clock), ("reset", some PortTy.resetTy)]
  else if 1 < numClocks then
    (List.range numClocks).flatMap (fun i =>
      [("clock" ++ toString i, some PortTy.clock),
       ("reset" ++ toString i, some PortTy.resetTy)])
  else []

/-- Port list of `createTopModuleOp`: all function arguments as
non-flipped bundles, all function results as flipped bundles, then the
clock/reset ports.  Also returns the emitted diagnostics. -/
def createTopModuleOpPorts (argTys resTys : List Ty) (numClocks : Nat) :
    List Port × List String :=
  let (argPorts, argDiags) := portsOfTypes argTys false 0
  let (resPorts, resDiags) := portsOfTypes resTys true argTys.length
  (argPorts ++ resPorts ++ clockResetPorts numClocks, argDiags ++ resDiags)

/-- Port list of `createSubModuleOp`: all operands as non-flipped
bundles, all results as flipped bundles, then `clock`/`reset` iff
`hasClock`.  Also returns the emitted diagnostics.  The function always
returns a module port list: there is no failure path. -/
def createSubModuleOpPorts (operandTys resultTys : List Ty)
    (hasClock : Bool) : List Port × List String :=
  let (inPorts, inDiags) := portsOfTypes operandTys false 0
  let (outPorts, outDiags) := portsOfTypes resultTys true operandTys.length
  let clockPorts : List Port :=
    if hasClock then
      [("clock", some PortTy.clock), ("reset", some PortTy.resetTy)]
    else []
  (inPorts ++ outPorts ++ clockPorts, inDiags ++ outDiags)

/-! ## Subfield extraction (`extractSubfields`, lines 295-318)

For every bundle port, one `SubfieldOp` per bundle element, in the
element order of `buildBundleType` (valid, ready, then data when
present).  Clock and single-bit ports pass through as the argument
itself. -/

/-- The subfield value vector extracted for port number `portIdx` of
port type `pt`. -/
def extractPort (portIdx : Nat) (pt : PortTy) : List Exp :=
  match pt with
  | PortTy.bundle _ dataTy =>
      [Exp.portField portIdx Field.valid, Exp.portField portIdx Field.ready] ++
      (match dataTy with
       | some _ => [Exp.portField portIdx Field.data]
       | Option.none => [])
  | PortTy.clock => [Exp.portRef portIdx]
  | PortTy.resetTy => [Exp.portRef portIdx]

/-! ## Sink logic builder (`buildSinkLogic`, lines 356-371)

Reads `argSubfields[0]` (valid), `argSubfields[1]` (ready) and —
unconditionally — `argSubfields[2]` (data); connects `ready` from a
constant-1 signal and erases the defining operations of the `valid` and
`data` subfield reads.  The C++ indexes the `SmallVector` directly, so
an out-of-range index 2 (control-only operand, two-element vector) is
modelled as `none`. -/

/-- Result of `buildSinkLogic`: the emitted statements and the list of
subfield values whose defining operations are erased; `none` when the
index-2 access falls outside the subfield vector. -/
def buildSinkLogic (argSubfields : List Exp) :
    Option (List Stmt × List Exp) :=
  match argSubfields.get? 0, argSubfields.get? 1, argSubfields.get? 2 with
  | some argValid, some argReady, some argData =>
      some ([Stmt.connect argReady (Exp.const 1 1)], [argValid, argData])
  | _, _, _ => Option.none

/-! ## Fork and lazy-fork builders (lines 611-641 and 647-677)

Port layout: port 0 is the operand channel, ports `1..numOuts` the
result channels.  `tmpReady` starts at `portList[1][1]` and is folded
with `AndPrimOp(resultReady_i, tmpReady)` for `i = 2..numOuts`. -/

/-- The folded ready expression after including result ports
`1..k+1`: `foldReadyFrom k = r_{k+1} AND (r_k AND (... AND r_1))`. -/
def foldReadyFrom : Nat → Exp
  | 0 => Exp.portField 1 Field.ready
  | k + 1 =>
      Exp.prim PrimOp.andOp (Exp.portField (k + 2) Field.ready)
        (foldReadyFrom k)

/-- Statements emitted by `buildLazyForkLogic` for `numOuts` result
channels; `isCtrl` is `oldOp->isControl()`. -/
def buildLazyForkLogic (numOuts : Nat) (isCtrl : Bool) : List Stmt :=
  let argValid := Exp.portField 0 Field.valid
  let argReady := Exp.portField 0 Field.ready
  let tmpReady := foldReadyFrom (numOuts - 1)
  let resultValidOp := Exp.prim PrimOp.andOp argValid tmpReady
  Stmt.connect argReady tmpReady ::
  (List.range' 1 numOuts).flatMap (fun i =>
    Stmt.connect (Exp.portField i Field.valid) resultValidOp ::
    (if isCtrl then []
     else [Stmt.connect (Exp.portField i Field.data)
             (Exp.portField 0 Field.data)]))

/-- Statements emitted by `buildForkLogic` (lines 647-677; an eager fork
is future work, the present code is the lazy form again). -/
def buildForkLogic (numOuts : Nat) (isCtrl : Bool) : List Stmt :=
  let argValid := Exp.portField 0 Field.valid
  let argReady := Exp.portField 0 Field.ready
  let tmpReady := foldReadyFrom (numOuts - 1)
  let resultValidOp := Exp.prim PrimOp.andOp argValid tmpReady
  Stmt.connect argReady tmpReady ::
  (List.range' 1 numOuts).flatMap (fun i =>
    Stmt.connect (Exp.portField i Field.valid) resultValidOp ::
    (if isCtrl then []
     else [Stmt.connect (Exp.portField i Field.data)
             (Exp.portField 0 Field.data)]))

/-! ## Mux logic builder (`buildMuxLogic`, lines 399-447)

Port layout: port 0 is the select channel, ports `1..numIns` the data
input channels, port `numIns + 1` the result channel.  Everything is
emitted inside `when select.valid` (no else region); the loop over
`i = 1 .. portList.size()-2` nests each new `when` inside the previous
else region, comparing `select.data` with `ConstantOp(APInt(64, i))` —
`i` being the portList index of the data input. -/

/-- The four connects of the branch for the data input at portList
index `i`. -/
def muxBranchBody (numIns i : Nat) : List Stmt :=
  let argValid := Exp.portField i Field.valid
  let argReady := Exp.portField i Field.ready
  let argData := Exp.portField i Field.data
  let resultValid := Exp.portField (numIns + 1) Field.valid
  let resultReady := Exp.portField (numIns + 1) Field.ready
  let resultData := Exp.portField (numIns + 1) Field.data
  [ Stmt.connect resultValid argValid,
    Stmt.connect resultData argData,
    Stmt.connect argReady resultReady,
    Stmt.connect (Exp.portField 0 Field.ready)
      (Exp.prim PrimOp.andOp argValid resultReady) ]

/-- The when-chain over the data input portList indices `idxs`; the
last when has no else region. -/
def muxChain (numIns : Nat) : List Nat → List Stmt
  | [] => []
  | [i] =>
      [Stmt.when
        (Exp.prim PrimOp.eqOp (Exp.portField 0 Field.data) (Exp.const 64 i))
        (muxBranchBody numIns i) []]
  | i :: rest =>
      [Stmt.when
        (Exp.prim PrimOp.eqOp (Exp.portField 0 Field.data) (Exp.const 64 i))
        (muxBranchBody numIns i) (muxChain numIns rest)]

/-- Statements emitted by `buildMuxLogic` for `numIns` data input
channels. -/
def buildMuxLogic (numIns : Nat) : List Stmt :=
  [Stmt.when (Exp.portField 0 Field.valid)
    (muxChain numIns (List.range' 1 numIns)) []]

/-! ## Operator signatures and the sub-module cache
(`getSubModuleName`, lines 115-135; `checkSubModuleOp`, lines 230-239;
driver loop, lines 1099-1206)

The signature of a non-pipeline operation: mnemonic, operand count,
result count, the compare predicate for `cmpi`, slot count and
sequential flag for buffers, and a `_ctrl` suffix for a truthy
`control` attribute. -/

/-- The data of an operation that `getSubModuleName` inspects. -/
structure OpSig where
  mnemonicName : String
  numOperands : Nat
  numResults : Nat
  cmpPredicate : Option String
  bufferSlotsSeq : Option (Nat × Bool)
  ctrlAttr : Bool
  deriving DecidableEq, Repr

/-- `getSubModuleName`: the canonical sub-module name string. -/
def getSubModuleName (op : OpSig) : String :=
  let n0 := op.mnemonicName ++ "_" ++ toString op.numOperands ++ "ins_" ++
            toString op.numResults ++ "outs"
  let n1 := match op.cmpPredicate with
    | some pred => n0 ++ "_" ++ pred
    | Option.none => n0
  let n2 := match op.bufferSlotsSeq with
    | some (slots, seq) =>
        let s := n1 ++ "_" ++ toString slots ++ "slots"
        if seq then s ++ "_seq" else s
    | Option.none => n1
  if op.ctrlAttr then n2 ++ "_ctrl" else n2

/-- `checkSubModuleOp`: scan the circuit's modules for one whose name
equals the operation's signature. -/
def checkSubModuleOp (mods : List String) (op : OpSig) : Bool :=
  mods.contains (getSubModuleName op)

/-- The driver loop over non-pipeline operations (lines 1099-1206):
for each operation, if `checkSubModuleOp` finds a module with the same
name it is reused, otherwise a new module with that name is appended to
the circuit.  Returns the final module-name list and, per operation in
order, the name of the module it was instantiated from
(`createInstOp(oldOp, subModuleOp, ...)`). -/
def convertLoop (ops : List OpSig) (mods : List String) :
    List String × List String :=
  match ops with
  | [] => (mods, [])
  | op :: rest =>
      let name := getSubModuleName op
      if checkSubModuleOp mods op then
        let (finalMods, insts) := convertLoop rest mods
        (finalMods, name :: insts)
      else
        let (finalMods, insts) := convertLoop rest (mods ++ [name])
        (finalMods, name :: insts)

/-! ## Pipeline lowering (`convertPipelineOp`, lines 991-1044;
`buildPipelineStructure`, lines 840-989; `buildPipelineWrapper`,
line 837)

`convertPipelineOp` inlines the pipeline region's blocks *after* the
FIRRTL sub-module's own entry block, so the module body is
`entry :: regionBlocks`.  `buildPipelineStructure` iterates
`llvm::drop_begin(subModuleOp, 1)` — i.e. exactly the region blocks,
the pipeline's entry block included — and creates per-stage resources
for every block whose terminator is not a `staticlogic.return`. -/

/-- A block of the inlined pipeline region, abstracted to whether its
terminator is a `staticlogic.return`. -/
structure PBlock where
  isRet : Bool
  deriving DecidableEq, Repr

/-- The resources created for one pipeline stage: the valid register
(name, reset value of its `RegInitOp`, whether it takes the module
clock and the module reset) and the ready wire name. -/
structure StageResource where
  validRegName : String
  validRegResetVal : Nat
  validRegHasClock : Bool
  validRegHasReset : Bool
  readyWireName : String
  deriving DecidableEq, Repr

/-- The per-stage resource loop of `buildPipelineStructure` (lines
856-929): walk the region blocks with running stage counter
`blocksIdx`; skip return-terminated blocks; otherwise create
`RegInitOp(uint<1>, clock, reset, zeroConst, "valid{blocksIdx}")` and
`WireOp(uint<1>, "ready{blocksIdx}")`. -/
def stageResourcesFrom : List PBlock → Nat → List StageResource
  | [], _ => []
  | b :: rest, blocksIdx =>
      if b.isRet then stageResourcesFrom rest blocksIdx
      else
        { validRegName := "valid" ++ toString blocksIdx
          validRegResetVal := 0
          validRegHasClock := true
          validRegHasReset := true
          readyWireName := "ready" ++ toString blocksIdx } ::
        stageResourcesFrom rest (blocksIdx + 1)

/-- Stage resources for a pipeline whose inlined region consists of
`regionBlocks` (the module entry block has already been dropped by
`llvm::drop_begin(subModuleOp, 1)`). -/
def stageResources (regionBlocks : List PBlock) : List StageResource :=
  stageResourcesFrom regionBlocks 0

/-- The number of pipeline stages (`blocksIdx` after the resource
loop). -/
def numStages (regionBlocks : List PBlock) : Nat :=
  (stageResources regionBlocks).length

/-- `validPrev` of stage `i`: the `valid_in` wire for stage 0,
otherwise the previous stage's valid register. -/
def validPrev (i : Nat) : Exp :=
  if i = 0 then Exp.wire WireId.validIn
  else Exp.reg (RegId.validReg (i - 1))

/-- `readyNext` of stage `i` among `numS` stages: the `ready_in` wire
for the last stage, otherwise the next stage's ready wire. -/
def readyNext (numS i : Nat) : Exp :=
  if i = numS - 1 then Exp.wire WireId.readyIn
  else Exp.wire (WireId.readyW (i + 1))

/-- The data-register connects of stage `i`: destination is the stage
register (by name), source the registered value. -/
def dataRegConnects (pairs : List (String × Exp)) : List Stmt :=
  pairs.map (fun p => Stmt.connect (Exp.reg (RegId.dataReg p.1)) p.2)

/-- The flushable back-pressure `WhenOp` emitted for stage `i` (lines
941-986).  `dataRegs i` are the stage's data registers as
(register name, source value) pairs, in `SmallMapVector` order. -/
def stageStmt (numS : Nat) (dataRegs : Nat → List (String × Exp))
    (i : Nat) : Stmt :=
  let vreg := Exp.reg (RegId.validReg i)
  let rwire := Exp.wire (WireId.readyW i)
  let vprev := validPrev i
  let rnext := readyNext numS i
  Stmt.when vreg
    [ Stmt.when (Exp.prim PrimOp.andOp rnext vprev)
        (dataRegConnects (dataRegs i)) [],
      Stmt.when (Exp.prim PrimOp.andOp rnext (Exp.notE vprev))
        [Stmt.connect vreg (Exp.const 1 0)] [],
      Stmt.connect rwire rnext ]
    (dataRegConnects (dataRegs i) ++
     [ Stmt.connect vreg vprev,
       Stmt.connect rwire (Exp.const 1 1) ])

/-- The back-pressure statements of `buildPipelineStructure` for all
stages `0 .. numS-1` (the loop at lines 937-986). -/
def buildPipelineStructure (numS : Nat)
    (dataRegs : Nat → List (String × Exp)) : List Stmt :=
  (List.range numS).map (stageStmt numS dataRegs)

/-- `buildPipelineWrapper` (line 837): its body is empty — it emits no
statements at all. -/
def buildPipelineWrapper : List Stmt := []

/-- The return wiring of `convertPipelineOp` (lines 1026-1032): connect
each terminator operand to the `data` subfield of the corresponding
output port (output port `j` is module port `numIns + j`). -/
def pipelineReturnWiring (numIns : Nat) (outs : List Exp) : List Stmt :=
  (List.zip (List.range outs.length) outs).map
    (fun p => Stmt.connect (Exp.portField (numIns + p.1) Field.data) p.2)

/-- All statements of the generated pipeline sub-module body: the
back-pressure structure, the (empty) wrapper, and the return wiring. -/
def fullPipelineBody (numS numIns : Nat)
    (dataRegs : Nat → List (String × Exp)) (outs : List Exp) : List Stmt :=
  buildPipelineStructure numS dataRegs ++ buildPipelineWrapper ++
  pipelineReturnWiring numIns outs

/-- Does an expression mention the pipeline boundary wires `valid_in`
or `ready_in`? -/
def mentionsBoundary : Exp → Bool
  | Exp.wire WireId.validIn => true
  | Exp.wire WireId.readyIn => true
  | Exp.prim _ a b => mentionsBoundary a || mentionsBoundary b
  | Exp.notE a => mentionsBoundary a
  | _ => false

/-- Does an expression mention a `valid` or `ready` subfield of a
module port? -/
def mentionsHandshakePort : Exp → Bool
  | Exp.portField _ Field.valid => true
  | Exp.portField _ Field.ready => true
  | Exp.prim _ a b => mentionsHandshakePort a || mentionsHandshakePort b
  | Exp.notE a => mentionsHandshakePort a
  | _ => false

/-! ## Observation helpers and concrete inputs used by the analysis -/

/-- The then-region of the first statement, when it is a `when`. -/
def thenOfFirst : List Stmt → List Stmt
  | Stmt.when _ t _ :: _ => t
  | _ => []

/-- Walk a chain of nested `when … else …` statements (each else region
holding the next `when`): the guard of the `j`-th link. -/
def chainGuard : List Stmt → Nat → Option Exp
  | Stmt.when c _ _ :: _, 0 => some c
  | Stmt.when _ _ e :: _, j + 1 => chainGuard e j
  | _, _ => Option.none

/-- Walk a chain of nested `when … else …` statements: the then-region
body of the `j`-th link. -/
def chainThen : List Stmt → Nat → Option (List Stmt)
  | Stmt.when _ t _ :: _, 0 => some t
  | Stmt.when _ _ e :: _, j + 1 => chainThen e j
  | _, _ => Option.none

/-- The guard of the mux branch that serves the `j`-th data input
(0-based over the `numIns` data inputs). -/
def muxGuardForInput (numIns j : Nat) : Option Exp :=
  chainGuard (thenOfFirst (buildMuxLogic numIns)) j

/-- The then-region body of the mux branch that serves the `j`-th data
input (0-based). -/
def muxBodyForInput (numIns j : Nat) : Option (List Stmt) :=
  chainThen (thenOfFirst (buildMuxLogic numIns)) j

/-- The stage resource carrying stage number `s`. -/
def stageResourceAt (s : Nat) : StageResource :=
  { validRegName := "valid" ++ toString s
    validRegResetVal := 0
    validRegHasClock := true
    validRegHasReset := true
    readyWireName := "ready" ++ toString s }

/-- The region blocks of the seed pipeline
(`test_pipeline_to_firrtl.mlir`): the region's entry block `^bb0`, the
middle block `^bb1`, and the `staticlogic.return`-terminated block
`^bb2`. -/
def seedPipelineBlocks : List PBlock :=
  [{ isRet := false }, { isRet := false }, { isRet := true }]

/-- Operand types of a concrete operation with an unsupported (f32)
operand type. -/
def unsupportedOpOperands : List Ty := [Ty.other "f32"]

/-- Result types of that operation. -/
def unsupportedOpResults : List Ty := [Ty.signless 32]

/-- `HandshakeFuncOpLowering::match` (line 1077): it returns
`success()` unconditionally — the conversion pattern never rejects a
function, whatever its contents. -/
def handshakeFuncOpLoweringMatch (_argTys _resTys : List Ty) : Bool :=
  true

/-! ## Theorems -/

/-- C1: for every binary arithmetic/logical/shift/compare sub-module
(operand channels at ports 0 and 1, result channel at port 2), the
builder connects `result.data` from the FIRRTL primitive applied to
`a.data` and `b.data`, connects `result.valid` from
`a.valid AND b.valid`, and connects both `a.ready` and `b.ready` from
the single expression `result.ready AND result.valid`, i.e.
`result.ready AND (a.valid AND b.valid)`. -/
theorem buildBinaryLogic_wiring (op : PrimOp) :
    buildBinaryLogic op =
      [ Stmt.connect (Exp.portField 2 Field.data)
          (Exp.prim op (Exp.portField 0 Field.data)
            (Exp.portField 1 Field.data)),
        Stmt.connect (Exp.portField 2 Field.valid)
          (Exp.prim PrimOp.andOp (Exp.portField 0 Field.valid)
            (Exp.portField 1 Field.valid)),
        Stmt.connect (Exp.portField 0 Field.ready)
          (Exp.prim PrimOp.andOp (Exp.portField 2 Field.ready)
            (Exp.prim PrimOp.andOp (Exp.portField 0 Field.valid)
              (Exp.portField 1 Field.valid))),
        Stmt.connect (Exp.portField 1 Field.ready)
          (Exp.prim PrimOp.andOp (Exp.portField 2 Field.ready)
            (Exp.prim PrimOp.andOp (Exp.portField 0 Field.valid)
              (Exp.portField 1 Field.valid))) ] := rfl

/-- C7 (failing input): on an operation with an unsupported (f32)
operand type, `createSubModuleOp` emits the "unsupported data type"
diagnostic on the operation — but does not abort: it still returns the
complete module port list, with the null bundle type pushed for the
offending operand, and the conversion pattern's `match` still returns
success.  The pass therefore does not return failure as the claim
states. -/
theorem unsupported_type_diag_but_no_failure :
    (createSubModuleOpPorts unsupportedOpOperands unsupportedOpResults
        false).2 = [unsupportedTypeDiag] ∧
    (createSubModuleOpPorts unsupportedOpOperands unsupportedOpResults
        false).1 =
      [("arg0", Option.none),
       ("arg1", some (PortTy.bundle true (some (FTy.uintTy 32))))] ∧
    handshakeFuncOpLoweringMatch unsupportedOpOperands
      unsupportedOpResults = true :=
  ⟨rfl, rfl, rfl⟩

/-- C3 (counterexample): the seed pipeline, whose region has three
blocks (the region entry, one middle block, one return-terminated
block), yields a sub-module with exactly two valid registers (`valid0`
and `valid1`), not three: `buildPipelineStructure` drops only the
FIRRTL module's own entry block, so the pipeline region's entry block
is itself a stage, and only the return-terminated block is skipped. -/
theorem seed_pipeline_valid_regs_counterexample :
    (stageResources seedPipelineBlocks).map StageResource.validRegName =
      ["valid0", "valid1"] ∧
    (stageResources seedPipelineBlocks).length = 2 ∧
    (stageResources seedPipelineBlocks).length ≠ 3 :=
  ⟨rfl, rfl, by decide⟩

/-- C9: the sink builder reads subfield indices 0, 1 and —
unconditionally — 2 of its operand's subfield vector, connects `ready`
from constant 1, and erases the defining operations of the `valid` and
`data` subfields; hence it requires the operand channel to carry a data
field, and for a control-only (`none`-typed) operand, whose extracted
vector has only the two elements valid and ready, the index-2 access
falls outside the vector. -/
theorem buildSinkLogic_requires_data (t : Ty) (pt : PortTy)
    (h : getBundleType t false = some pt) :
    (t = Ty.noneTy →
       (extractPort 0 pt).length = 2 ∧
       (extractPort 0 pt).get? 2 = Option.none ∧
       buildSinkLogic (extractPort 0 pt) = Option.none) ∧
    (t ≠ Ty.noneTy →
       buildSinkLogic (extractPort 0 pt) =
         some ([Stmt.connect (Exp.portField 0 Field.ready) (Exp.const 1 1)],
               [Exp.portField 0 Field.valid, Exp.portField 0 Field.data])) := by
  cases t <;> simp_all [getBundleType] <;> subst h <;>
    simp [extractPort, buildSinkLogic]

/-- C9 witness: at the control-only type `none` the hypothesis holds
and the index-2 access misses. -/
theorem buildSinkLogic_requires_data_witness :
    (Ty.noneTy = Ty.noneTy →
       (extractPort 0 (PortTy.bundle false Option.none)).length = 2 ∧
       (extractPort 0 (PortTy.bundle false Option.none)).get? 2 =
         Option.none ∧
       buildSinkLogic (extractPort 0 (PortTy.bundle false Option.none)) =
         Option.none) ∧
    (Ty.noneTy ≠ Ty.noneTy →
       buildSinkLogic (extractPort 0 (PortTy.bundle false Option.none)) =
         some ([Stmt.connect (Exp.portField 0 Field.ready) (Exp.const 1 1)],
               [Exp.portField 0 Field.valid, Exp.portField 0 Field.data])) :=
  buildSinkLogic_requires_data Ty.noneTy (PortTy.bundle false Option.none) rfl

/-- The stage-resource loop enumerates the non-return blocks, numbering
stages consecutively from the start index. -/
theorem stageResourcesFrom_eq (blocks : List PBlock) (idx : Nat) :
    stageResourcesFrom blocks idx =
      (List.range (blocks.filter (fun b => !b.isRet)).length).map
        (fun s => stageResourceAt (idx + s)) := by
  induction blocks generalizing idx with
  | nil => rfl
  | cons b rest ih =>
    by_cases hb : b.isRet
    · simp [stageResourcesFrom, hb, List.filter_cons, ih]
    · simp only [stageResourcesFrom, hb, if_false, List.filter_cons,
        Bool.not_false, if_true, reduceIte, ih (idx + 1)]
      simp only [List.length_cons, List.range_succ_eq_map, List.map_cons,
        List.map_map]
      have hfun : ((fun s => stageResourceAt (idx + s)) ∘ Nat.succ) =
          (fun s => stageResourceAt (idx + 1 + s)) := by
        funext s
        simp only [Function.comp_apply]
        congr 1
        omega
      rw [hfun]
      simp [stageResourceAt]

/-- C3 (amended): one valid register named `valid{s}` (reset value 0,
clocked by the module clock, reset by the module reset) and one ready
wire named `ready{s}` are created per pipeline stage, where each
*non-return* block of the pipeline region — the region's entry block
included — is one stage; the seed pipeline whose region has three
blocks therefore yields two valid registers. -/
theorem stage_resources_per_nonreturn_block (blocks : List PBlock)
    (s : Nat) (hs : s < (blocks.filter (fun b => !b.isRet)).length) :
    (stageResources blocks).length =
      (blocks.filter (fun b => !b.isRet)).length ∧
    (stageResources blocks).get? s = some
      { validRegName := "valid" ++ toString s
        validRegResetVal := 0
        validRegHasClock := true
        validRegHasReset := true
        readyWireName := "ready" ++ toString s } ∧
    (stageResources seedPipelineBlocks).length = 2 := by
  refine ⟨?_, ?_, rfl⟩
  · simp [stageResources, stageResourcesFrom_eq]
  · simp only [stageResources, stageResourcesFrom_eq, List.get?_eq_getElem?,
      List.getElem?_map, List.getElem?_range hs, Option.map_some']
    simp [stageResourceAt]

/-- C3 witness: at a two-block region (one plain block, one return
block) stage 0 exists and carries `valid0`/`ready0`. -/
theorem stage_resources_per_nonreturn_block_witness :
    (stageResources [{ isRet := false }, { isRet := true }]).length =
      ([{ isRet := false }, { isRet := true }].filter
        (fun b : PBlock => !b.isRet)).length ∧
    (stageResources [{ isRet := false }, { isRet := true }]).get? 0 = some
      { validRegName := "valid" ++ toString 0
        validRegResetVal := 0
        validRegHasClock := true
        validRegHasReset := true
        readyWireName := "ready" ++ toString 0 } ∧
    (stageResources seedPipelineBlocks).length = 2 :=
  stage_resources_per_nonreturn_block
    [{ isRet := false }, { isRet := true }] 0 (by decide)

/-- The `j`-th link of a mux when-chain over input port indices `idxs`:
its guard compares `select.data` with the 64-bit constant `idxs[j]`,
and its then-region is the branch body for input port `idxs[j]`. -/
theorem muxChain_link (numIns : Nat) (idxs : List Nat) (j : Nat)
    (hj : j < idxs.length) :
    chainGuard (muxChain numIns idxs) j =
      some (Exp.prim PrimOp.eqOp (Exp.portField 0 Field.data)
        (Exp.const 64 (idxs.get ⟨j, hj⟩))) ∧
    chainThen (muxChain numIns idxs) j =
      some (muxBranchBody numIns (idxs.get ⟨j, hj⟩)) := by
  induction idxs generalizing j with
  | nil => exact absurd hj (by simp)
  | cons i rest ih =>
    cases rest with
    | nil =>
      cases j with
      | zero => exact ⟨rfl, rfl⟩
      | succ j => simp at hj
    | cons i2 rest2 =>
      cases j with
      | zero => exact ⟨rfl, rfl⟩
      | succ j =>
        have hj' : j < (i2 :: rest2).length := by
          simpa using Nat.lt_of_succ_lt_succ hj
        simpa [muxChain, chainGuard, chainThen] using ih j hj'

/-- C4 (counterexample): in a two-input mux, the branch serving data
input 0 is guarded by `select.data == 1`, not by `select.data == 0` as
the claim states — the comparison constant is the 1-based portList
index of the input. -/
theorem mux_select_off_by_one :
    muxGuardForInput 2 0 =
      some (Exp.prim PrimOp.eqOp (Exp.portField 0 Field.data)
        (Exp.const 64 1)) ∧
    muxGuardForInput 2 0 ≠
      some (Exp.prim PrimOp.eqOp (Exp.portField 0 Field.data)
        (Exp.const 64 0)) :=
  ⟨rfl, by decide⟩

/-- C4 (amended): for every mux sub-module with selector channel first,
`numIns` data inputs and one result channel, the builder emits, inside
a when-scope guarded by `select.valid` (with no else region), a chain
of nested whens whose condition for data input `j` (0-based) is
`select.data == j + 1` — the 1-based operand index — and in the branch
for input `j` connects `result.valid` from `input_j.valid`,
`result.data` from `input_j.data`, `input_j.ready` from `result.ready`,
and `select.ready` from `input_j.valid AND result.ready`; nothing is
connected while the selector is invalid. -/
theorem buildMuxLogic_wiring (numIns j : Nat) (hj : j < numIns) :
    buildMuxLogic numIns =
      [Stmt.when (Exp.portField 0 Field.valid)
        (muxChain numIns (List.range' 1 numIns)) []] ∧
    muxGuardForInput numIns j =
      some (Exp.prim PrimOp.eqOp (Exp.portField 0 Field.data)
        (Exp.const 64 (j + 1))) ∧
    muxBodyForInput numIns j = some
      [ Stmt.connect (Exp.portField (numIns + 1) Field.valid)
          (Exp.portField (j + 1) Field.valid),
        Stmt.connect (Exp.portField (numIns + 1) Field.data)
          (Exp.portField (j + 1) Field.data),
        Stmt.connect (Exp.portField (j + 1) Field.ready)
          (Exp.portField (numIns + 1) Field.ready),
        Stmt.connect (Exp.portField 0 Field.ready)
          (Exp.prim PrimOp.andOp (Exp.portField (j + 1) Field.valid)
            (Exp.portField (numIns + 1) Field.ready)) ] := by
  have hlen : j < (List.range' 1 numIns).length := by simpa using hj
  have hget : (List.range' 1 numIns).get ⟨j, hlen⟩ = j + 1 := by
    simp [Nat.add_comm]
  have hlink := muxChain_link numIns (List.range' 1 numIns) j hlen
  refine ⟨rfl, ?_, ?_⟩
  · rw [muxGuardForInput, show thenOfFirst (buildMuxLogic numIns) =
      muxChain numIns (List.range' 1 numIns) from rfl, hlink.1, hget]
  · rw [muxBodyForInput, show thenOfFirst (buildMuxLogic numIns) =
      muxChain numIns (List.range' 1 numIns) from rfl, hlink.2, hget]
    simp [muxBranchBody]

/-- C4 witness: the two-input mux at data input 0. -/
theorem buildMuxLogic_wiring_witness :
    buildMuxLogic 2 =
      [Stmt.when (Exp.portField 0 Field.valid)
        (muxChain 2 (List.range' 1 2)) []] ∧
    muxGuardForInput 2 0 =
      some (Exp.prim PrimOp.eqOp (Exp.portField 0 Field.data)
        (Exp.const 64 (0 + 1))) ∧
    muxBodyForInput 2 0 = some
      [ Stmt.connect (Exp.portField (2 + 1) Field.valid)
          (Exp.portField (0 + 1) Field.valid),
        Stmt.connect (Exp.portField (2 + 1) Field.data)
          (Exp.portField (0 + 1) Field.data),
        Stmt.connect (Exp.portField (0 + 1) Field.ready)
          (Exp.portField (2 + 1) Field.ready),
        Stmt.connect (Exp.portField 0 Field.ready)
          (Exp.prim PrimOp.andOp (Exp.portField (0 + 1) Field.valid)
            (Exp.portField (2 + 1) Field.ready)) ] :=
  buildMuxLogic_wiring 2 0 (by decide)

/-- Modules present before the driver loop survive it. -/
theorem convertLoop_fst_mono (ops : List OpSig) (mods : List String) :
    ∀ n ∈ mods, n ∈ (convertLoop ops mods).1 := by
  induction ops generalizing mods with
  | nil =>
    intro n hn
    simpa [convertLoop] using hn
  | cons op rest ih =>
    intro n hn
    by_cases hc : checkSubModuleOp mods op
    · simpa [convertLoop, hc] using ih mods n hn
    · simpa [convertLoop, hc] using
        ih (mods ++ [getSubModuleName op]) n (List.mem_append_left _ hn)

/-- The driver loop never duplicates a module name. -/
theorem convertLoop_fst_nodup (ops : List OpSig) (mods : List String)
    (h : mods.Nodup) : (convertLoop ops mods).1.Nodup := by
  induction ops generalizing mods with
  | nil => simpa [convertLoop] using h
  | cons op rest ih =>
    by_cases hc : checkSubModuleOp mods op
    · simpa [convertLoop, hc] using ih mods h
    · have hnm : getSubModuleName op ∉ mods := by
        simpa [checkSubModuleOp, List.contains, List.elem_iff] using hc
      have : (mods ++ [getSubModuleName op]).Nodup := by
        simp [List.nodup_append, hnm, h]
      simpa [convertLoop, hc] using ih (mods ++ [getSubModuleName op]) this

/-- Every processed operation's signature names a module of the final
circuit. -/
theorem convertLoop_fst_mem (ops : List OpSig) (mods : List String)
    (op : OpSig) (hop : op ∈ ops) :
    getSubModuleName op ∈ (convertLoop ops mods).1 := by
  induction ops generalizing mods with
  | nil => cases hop
  | cons o rest ih =>
    rcases List.mem_cons.1 hop with heq | hmem
    · subst heq
      by_cases hc : checkSubModuleOp mods op
      · have : getSubModuleName op ∈ mods := by
          simpa [checkSubModuleOp, List.contains, List.elem_iff] using hc
        simpa [convertLoop, hc] using convertLoop_fst_mono rest mods _ this
      · simpa [convertLoop, hc] using
          convertLoop_fst_mono rest (mods ++ [getSubModuleName op]) _
            (List.mem_append_right _ (List.mem_singleton.2 rfl))
    · by_cases hc : checkSubModuleOp mods o
      · simpa [convertLoop, hc] using ih mods hmem
      · simpa [convertLoop, hc] using ih (mods ++ [getSubModuleName o]) hmem

/-- Any module of the final circuit either pre-existed or is named by
the signature of one of the processed operations. -/
theorem convertLoop_fst_origin (ops : List OpSig) (mods : List String) :
    ∀ n ∈ (convertLoop ops mods).1,
      n ∈ mods ∨ ∃ op ∈ ops, getSubModuleName op = n := by
  induction ops generalizing mods with
  | nil => simp [convertLoop]
  | cons op rest ih =>
    intro n hn
    by_cases hc : checkSubModuleOp mods op
    · rcases ih mods n (by simpa [convertLoop, hc] using hn) with h | ⟨o, ho, ho2⟩
      · exact Or.inl h
      · exact Or.inr ⟨o, List.mem_cons_of_mem _ ho, ho2⟩
    · rcases ih (mods ++ [getSubModuleName op]) n
          (by simpa [convertLoop, hc] using hn) with h | ⟨o, ho, ho2⟩
      · rcases List.mem_append.1 h with h | h
        · exact Or.inl h
        · exact Or.inr ⟨op, List.mem_cons_self .., List.mem_singleton.1 h ▸ rfl⟩
      · exact Or.inr ⟨o, List.mem_cons_of_mem _ ho, ho2⟩

/-- Each operation is instantiated from the module named by its own
signature. -/
theorem convertLoop_snd (ops : List OpSig) (mods : List String) :
    (convertLoop ops mods).2 = ops.map getSubModuleName := by
  induction ops generalizing mods with
  | nil => rfl
  | cons op rest ih =>
    by_cases hc : checkSubModuleOp mods op
    · simp [convertLoop, hc, ih]
    · simp [convertLoop, hc, ih]

/-- C6: for any two original non-pipeline operations whose operator
signature strings (`getSubModuleName`) are equal, at most one module
with that name exists in the final circuit (here: exactly one, and the
whole module list is duplicate-free), both operations are instantiated
from the module of that one name, and no module is ever created beyond
the pre-existing ones and one per distinct signature — a second
operation with an already-seen signature never creates a new module. -/
theorem subModule_cache_unique (ops : List OpSig) (init : List String)
    (hinit : init.Nodup) (a b : OpSig) (ha : a ∈ ops) (hb : b ∈ ops)
    (hab : getSubModuleName a = getSubModuleName b) :
    (convertLoop ops init).1.Nodup ∧
    getSubModuleName b ∈ (convertLoop ops init).1 ∧
    (convertLoop ops init).1.count (getSubModuleName a) = 1 ∧
    (convertLoop ops init).1.count (getSubModuleName b) = 1 ∧
    (∀ n ∈ (convertLoop ops init).1,
      n ∈ init ∨ ∃ op ∈ ops, getSubModuleName op = n) ∧
    (convertLoop ops init).2 = ops.map getSubModuleName := by
  have hnd := convertLoop_fst_nodup ops init hinit
  have hma := convertLoop_fst_mem ops init a ha
  refine ⟨hnd, convertLoop_fst_mem ops init b hb,
    List.count_eq_one_of_mem hnd hma, ?_, ?_, ?_⟩
  · exact hab ▸ List.count_eq_one_of_mem hnd hma
  · exact convertLoop_fst_origin ops init
  · exact convertLoop_snd ops init

/-- C6 witness: two `std.addi` operations with equal signatures against
a circuit holding only the top module. -/
theorem subModule_cache_unique_witness :
    ((convertLoop [⟨"std.addi", 2, 1, Option.none, Option.none, false⟩,
        ⟨"std.addi", 2, 1, Option.none, Option.none, false⟩]
        ["top"]).1).Nodup ∧
    getSubModuleName ⟨"std.addi", 2, 1, Option.none, Option.none,
        false⟩ ∈
      (convertLoop [⟨"std.addi", 2, 1, Option.none, Option.none, false⟩,
        ⟨"std.addi", 2, 1, Option.none, Option.none, false⟩]
        ["top"]).1 ∧
    ((convertLoop [⟨"std.addi", 2, 1, Option.none, Option.none, false⟩,
        ⟨"std.addi", 2, 1, Option.none, Option.none, false⟩]
        ["top"]).1).count
      (getSubModuleName ⟨"std.addi", 2, 1, Option.none, Option.none,
        false⟩) = 1 ∧
    ((convertLoop [⟨"std.addi", 2, 1, Option.none, Option.none, false⟩,
        ⟨"std.addi", 2, 1, Option.none, Option.none, false⟩]
        ["top"]).1).count
      (getSubModuleName ⟨"std.addi", 2, 1, Option.none, Option.none,
        false⟩) = 1 ∧
    (∀ n ∈ (convertLoop [⟨"std.addi", 2, 1, Option.none, Option.none,
        false⟩, ⟨"std.addi", 2, 1, Option.none, Option.none, false⟩]
        ["top"]).1,
      n ∈ ["top"] ∨ ∃ op ∈ [(⟨"std.addi", 2, 1, Option.none, Option.none,
        false⟩ : OpSig), ⟨"std.addi", 2, 1, Option.none, Option.none,
        false⟩], getSubModuleName op = n) ∧
    (convertLoop [⟨"std.addi", 2, 1, Option.none, Option.none, false⟩,
        ⟨"std.addi", 2, 1, Option.none, Option.none, false⟩]
        ["top"]).2 =
      [(⟨"std.addi", 2, 1, Option.none, Option.none, false⟩ : OpSig),
        ⟨"std.addi", 2, 1, Option.none, Option.none, false⟩].map
        getSubModuleName :=
  subModule_cache_unique _ _ (by decide) _ _
    (List.mem_cons_self ..) (List.mem_cons_of_mem _ (List.mem_singleton.2 rfl))
    rfl

/-- Length of a type-derived port list. -/
theorem portsOfTypes_length (tys : List Ty) (isFlip : Bool) (idx : Nat) :
    (portsOfTypes tys isFlip idx).1.length = tys.length := by
  induction tys generalizing idx with
  | nil => rfl
  | cons t rest ih => simp [portsOfTypes, ih]

/-- Positional shape of a type-derived port list. -/
theorem portsOfTypes_get (tys : List Ty) (isFlip : Bool) (idx j : Nat)
    (hj : j < tys.length) :
    (portsOfTypes tys isFlip idx).1.get? j =
      some ("arg" ++ toString (idx + j),
        getBundleType (tys.get ⟨j, hj⟩) isFlip) := by
  induction tys generalizing idx j with
  | nil => exact absurd hj (by simp)
  | cons t rest ih =>
    cases j with
    | zero => simp [portsOfTypes]
    | succ j =>
      have hj' : j < rest.length := Nat.lt_of_succ_lt_succ hj
      have := ih (idx + 1) j hj'
      simpa [portsOfTypes, Nat.add_assoc, Nat.add_comm 1 j] using this

/-- A supported type always maps to a bundle whose flip is the
requested one. -/
theorem getBundleType_shape (t : Ty) (isFlip : Bool)
    (h : (getBundleType t false).isSome) :
    ∃ d, getBundleType t isFlip = some (PortTy.bundle isFlip d) := by
  cases t <;> simp_all [getBundleType]

/-- The multi-clock port list: length. -/
theorem multiClock_length (k : Nat) :
    ((List.range k).flatMap (fun i =>
      [(("clock" ++ toString i : String), some PortTy.clock),
       (("reset" ++ toString i : String), some PortTy.resetTy)])).length =
    2 * k := by
  induction k with
  | zero => rfl
  | succ k ih =>
    simp only [List.range_succ, List.flatMap_append, List.length_append, ih]
    simp [Nat.mul_succ]

/-- The multi-clock port list: the `i`-th clock/reset pair. -/
theorem multiClock_get (k i : Nat) (hi : i < k) :
    ((List.range k).flatMap (fun i =>
      [(("clock" ++ toString i : String), some PortTy.clock),
       (("reset" ++ toString i : String), some PortTy.resetTy)])).get?
      (2 * i) = some ("clock" ++ toString i, some PortTy.clock) ∧
    ((List.range k).flatMap (fun i =>
      [(("clock" ++ toString i : String), some PortTy.clock),
       (("reset" ++ toString i : String), some PortTy.resetTy)])).get?
      (2 * i + 1) = some ("reset" ++ toString i, some PortTy.resetTy) := by
  induction k with
  | zero => exact absurd hi (by simp)
  | succ k ih =>
    rcases Nat.lt_succ_iff_lt_or_eq.1 hi with hik | hik
    · have hlt : 2 * i + 1 <
          ((List.range k).flatMap (fun i =>
            [(("clock" ++ toString i : String), some PortTy.clock),
             (("reset" ++ toString i : String),
               some PortTy.resetTy)])).length := by
        rw [multiClock_length]
        omega
      have hlt0 : 2 * i <
          ((List.range k).flatMap (fun i =>
            [(("clock" ++ toString i : String), some PortTy.clock),
             (("reset" ++ toString i : String),
               some PortTy.resetTy)])).length := by
        rw [multiClock_length]
        omega
      have h2 := ih hik
      constructor
      · rw [List.range_succ, List.flatMap_append, List.get?_eq_getElem?,
          List.getElem?_append_left hlt0]
        simpa [List.get?_eq_getElem?] using h2.1
      · rw [List.range_succ, List.flatMap_append, List.get?_eq_getElem?,
          List.getElem?_append_left hlt]
        simpa [List.get?_eq_getElem?] using h2.2
    · subst hik
      have hlen := multiClock_length i
      constructor
      · rw [List.range_succ, List.flatMap_append, List.get?_eq_getElem?,
          List.getElem?_append_right (by omega)]
        simp [hlen]
      · rw [List.range_succ, List.flatMap_append, List.get?_eq_getElem?,
          List.getElem?_append_right (by omega)]
        simp [hlen]

/-- C5: for every source function and requested clock count `K ≥ 1`,
the generated top module's ports are, in order: one non-flipped
handshaked bundle named `arg{i}` per function argument, then one
flipped handshaked bundle per function result, then `K` clock/reset
pairs, named `clock`/`reset` when `K = 1` and `clock{i}`/`reset{i}`
when `K > 1`. -/
theorem createTopModuleOp_port_shape (argTys resTys : List Ty)
    (numClocks : Nat) (hK : 1 ≤ numClocks)
    (hsup : ∀ t ∈ argTys ++ resTys, (getBundleType t false).isSome) :
    ((createTopModuleOpPorts argTys resTys numClocks).1).length =
      argTys.length + resTys.length + 2 * numClocks ∧
    (∀ i, (hi : i < argTys.length) → ∃ d,
      ((createTopModuleOpPorts argTys resTys numClocks).1).get? i =
        some ("arg" ++ toString i, some (PortTy.bundle false d))) ∧
    (∀ j, (hj : j < resTys.length) → ∃ d,
      ((createTopModuleOpPorts argTys resTys numClocks).1).get?
          (argTys.length + j) =
        some ("arg" ++ toString (argTys.length + j),
          some (PortTy.bundle true d))) ∧
    (numClocks = 1 →
      ((createTopModuleOpPorts argTys resTys numClocks).1).drop
          (argTys.length + resTys.length) =
        [("clock", some PortTy.clock), ("reset", some PortTy.resetTy)]) ∧
    (1 < numClocks → ∀ i, i < numClocks →
      ((createTopModuleOpPorts argTys resTys numClocks).1).get?
          (argTys.length + resTys.length + 2 * i) =
        some ("clock" ++ toString i, some PortTy.clock) ∧
      ((createTopModuleOpPorts argTys resTys numClocks).1).get?
          (argTys.length + resTys.length + 2 * i + 1) =
        some ("reset" ++ toString i, some PortTy.resetTy)) := by
  have hlenA := portsOfTypes_length argTys false 0
  have hlenR := portsOfTypes_length resTys true argTys.length
  have hcrLen : (clockResetPorts numClocks).length = 2 * numClocks := by
    by_cases h1 : numClocks = 1
    · subst h1; rfl
    · have h2 : 1 < numClocks := by omega
      simp only [clockResetPorts, h1, if_false, h2, if_true, reduceIte]
      exact multiClock_length numClocks
  have hx : ((portsOfTypes argTys false 0).1 ++
      (portsOfTypes resTys true argTys.length).1).length =
      argTys.length + resTys.length := by
    rw [List.length_append, hlenA, hlenR]
  refine ⟨?_, ?_, ?_, ?_, ?_⟩
  · simp only [createTopModuleOpPorts, List.length_append, hlenA, hlenR,
      hcrLen]
  · intro i hi
    obtain ⟨d, hd⟩ := getBundleType_shape (argTys.get ⟨i, hi⟩) false
      (hsup _ (List.mem_append_left _ (argTys.get_mem ..)))
    refine ⟨d, ?_⟩
    have hiA : i < (portsOfTypes argTys false 0).1.length := by
      rw [hlenA]; exact hi
    have hiAB : i < ((portsOfTypes argTys false 0).1 ++
        (portsOfTypes resTys true argTys.length).1).length := by
      rw [hx]; omega
    rw [createTopModuleOpPorts]
    simp only [List.get?_eq_getElem?]
    rw [List.getElem?_append_left hiAB, List.getElem?_append_left hiA]
    have := portsOfTypes_get argTys false 0 i hi
    simp only [List.get?_eq_getElem?] at this
    rw [this, hd]
    simp
  · intro j hj
    obtain ⟨d, hd⟩ := getBundleType_shape (resTys.get ⟨j, hj⟩) true
      (hsup _ (List.mem_append_right _ (resTys.get_mem ..)))
    refine ⟨d, ?_⟩
    have hjB : j < (portsOfTypes resTys true argTys.length).1.length := by
      rw [hlenR]; exact hj
    have hjAB : argTys.length + j < ((portsOfTypes argTys false 0).1 ++
        (portsOfTypes resTys true argTys.length).1).length := by
      rw [hx]; omega
    rw [createTopModuleOpPorts]
    simp only [List.get?_eq_getElem?]
    rw [List.getElem?_append_left hjAB,
      List.getElem?_append_right (by rw [hlenA]; omega :
        (portsOfTypes argTys false 0).1.length ≤ argTys.length + j),
      hlenA, show argTys.length + j - argTys.length = j by omega]
    have := portsOfTypes_get resTys true argTys.length j hj
    simp only [List.get?_eq_getElem?] at this
    rw [this, hd]
  · intro h1
    subst h1
    rw [createTopModuleOpPorts]
    rw [List.drop_left' hx]
    rfl
  · intro h2 i hi
    have hoff : ∀ n, ((createTopModuleOpPorts argTys resTys
        numClocks).1).get? (argTys.length + resTys.length + n) =
        (clockResetPorts numClocks).get? n := by
      intro n
      rw [createTopModuleOpPorts]
      simp only [List.get?_eq_getElem?]
      rw [List.getElem?_append_right (by rw [hx]; omega :
        ((portsOfTypes argTys false 0).1 ++
          (portsOfTypes resTys true argTys.length).1).length ≤
          argTys.length + resTys.length + n)]
      rw [hx, show argTys.length + resTys.length + n -
        (argTys.length + resTys.length) = n by omega]
    have hcr : clockResetPorts numClocks =
        (List.range numClocks).flatMap (fun i =>
          [(("clock" ++ toString i : String), some PortTy.clock),
           (("reset" ++ toString i : String), some PortTy.resetTy)]) := by
      simp only [clockResetPorts]
      rw [if_neg (by omega : ¬ numClocks = 1), if_pos h2]
    have := multiClock_get numClocks i hi
    refine ⟨?_, ?_⟩
    · rw [hoff (2 * i), hcr]
      exact this.1
    · rw [show argTys.length + resTys.length + 2 * i + 1 =
        argTys.length + resTys.length + (2 * i + 1) by omega,
        hoff (2 * i + 1), hcr]
      exact this.2

/-- C5 witness: one `u32` argument, one `u32` result, one clock. -/
theorem createTopModuleOp_port_shape_witness :
    ((createTopModuleOpPorts [Ty.unsigned 32] [Ty.unsigned 32] 1).1).length
      = [Ty.unsigned 32].length + [Ty.unsigned 32].length + 2 * 1 ∧
    (∀ i, (hi : i < [Ty.unsigned 32].length) → ∃ d,
      ((createTopModuleOpPorts [Ty.unsigned 32] [Ty.unsigned 32]
        1).1).get? i =
        some ("arg" ++ toString i, some (PortTy.bundle false d))) ∧
    (∀ j, (hj : j < [Ty.unsigned 32].length) → ∃ d,
      ((createTopModuleOpPorts [Ty.unsigned 32] [Ty.unsigned 32]
        1).1).get? ([Ty.unsigned 32].length + j) =
        some ("arg" ++ toString ([Ty.unsigned 32].length + j),
          some (PortTy.bundle true d))) ∧
    ((1 : Nat) = 1 →
      ((createTopModuleOpPorts [Ty.unsigned 32] [Ty.unsigned 32]
        1).1).drop ([Ty.unsigned 32].length + [Ty.unsigned 32].length) =
        [("clock", some PortTy.clock), ("reset", some PortTy.resetTy)]) ∧
    (1 < (1 : Nat) → ∀ i, i < 1 →
      ((createTopModuleOpPorts [Ty.unsigned 32] [Ty.unsigned 32]
        1).1).get? ([Ty.unsigned 32].length + [Ty.unsigned 32].length +
          2 * i) = some ("clock" ++ toString i, some PortTy.clock) ∧
      ((createTopModuleOpPorts [Ty.unsigned 32] [Ty.unsigned 32]
        1).1).get? ([Ty.unsigned 32].length + [Ty.unsigned 32].length +
          2 * i + 1) = some ("reset" ++ toString i, some PortTy.resetTy)) :=
  createTopModuleOp_port_shape [Ty.unsigned 32] [Ty.unsigned 32] 1
    (by decide) (by decide)

/-- Indices `1..numOuts` are exactly the members of
`List.range' 1 numOuts`. -/
theorem mem_range'_one (numOuts i : Nat) (hi1 : 1 ≤ i)
    (hi2 : i ≤ numOuts) : i ∈ List.range' 1 numOuts := by
  rw [List.mem_range']
  exact ⟨i - 1, by omega, by omega⟩

/-- C8: the fork builder and the lazy-fork builder produce identical
sub-module bodies for the same port list; in both, `operand.ready` is
connected from the AND-fold of all result readies, every
`result_i.valid` is connected from `operand.valid AND` that same
AND-fold, and every `result_i.data` is connected from `operand.data`
exactly when the operation is not control-only. -/
theorem buildForkLogic_eq_buildLazyForkLogic (numOuts : Nat)
    (isCtrl : Bool) (_hn : 1 ≤ numOuts) :
    buildForkLogic numOuts isCtrl = buildLazyForkLogic numOuts isCtrl ∧
    (buildForkLogic numOuts isCtrl).head? =
      some (Stmt.connect (Exp.portField 0 Field.ready)
        (foldReadyFrom (numOuts - 1))) ∧
    (∀ i, 1 ≤ i → i ≤ numOuts →
      Stmt.connect (Exp.portField i Field.valid)
        (Exp.prim PrimOp.andOp (Exp.portField 0 Field.valid)
          (foldReadyFrom (numOuts - 1))) ∈
        buildForkLogic numOuts isCtrl) ∧
    (∀ i, 1 ≤ i → i ≤ numOuts →
      (Stmt.connect (Exp.portField i Field.data)
          (Exp.portField 0 Field.data) ∈ buildForkLogic numOuts isCtrl ↔
        isCtrl = false)) := by
  refine ⟨rfl, rfl, ?_, ?_⟩
  · intro i hi1 hi2
    apply List.mem_cons_of_mem
    rw [List.mem_flatMap]
    exact ⟨i, mem_range'_one numOuts i hi1 hi2, List.mem_cons_self ..⟩
  · intro i hi1 hi2
    constructor
    · intro hmem
      by_contra hc
      have hct : isCtrl = true := by
        cases isCtrl
        · exact absurd rfl hc
        · rfl
      subst hct
      rcases List.mem_cons.1 hmem with h | h
      · exact Stmt.noConfusion h fun hd _ => by
          exact Exp.noConfusion hd fun _ hf => Field.noConfusion hf
      · rcases List.mem_flatMap.1 h with ⟨a, _, ha⟩
        simp only [if_true, reduceIte] at ha
        rcases List.mem_cons.1 ha with h2 | h2
        · exact Stmt.noConfusion h2 fun hd _ => by
            exact Exp.noConfusion hd fun _ hf => Field.noConfusion hf
        · simp at h2
    · intro hc
      subst hc
      apply List.mem_cons_of_mem
      rw [List.mem_flatMap]
      refine ⟨i, mem_range'_one numOuts i hi1 hi2, ?_⟩
      simp

/-- C8 witness: a three-output fork carrying data. -/
theorem buildForkLogic_eq_buildLazyForkLogic_witness :
    buildForkLogic 3 false = buildLazyForkLogic 3 false ∧
    (buildForkLogic 3 false).head? =
      some (Stmt.connect (Exp.portField 0 Field.ready)
        (foldReadyFrom (3 - 1))) ∧
    (∀ i, 1 ≤ i → i ≤ 3 →
      Stmt.connect (Exp.portField i Field.valid)
        (Exp.prim PrimOp.andOp (Exp.portField 0 Field.valid)
          (foldReadyFrom (3 - 1))) ∈ buildForkLogic 3 false) ∧
    (∀ i, 1 ≤ i → i ≤ 3 →
      (Stmt.connect (Exp.portField i Field.data)
          (Exp.portField 0 Field.data) ∈ buildForkLogic 3 false ↔
        false = false)) :=
  buildForkLogic_eq_buildLazyForkLogic 3 false (by decide)

/-- C2: in every lowered pipeline sub-module, the back-pressure
statement of stage `s` (with `valid_{-1}` the `valid_in` wire and
`ready_S` the `ready_in` wire) is: when the stage's valid register is
set, the data registers are updated from their source values exactly
under `ready_{s+1} AND valid_{s-1}`, the valid register is set to 0
exactly under `ready_{s+1} AND NOT valid_{s-1}`, and `ready_s` is
connected from `ready_{s+1}`; otherwise the data registers are updated
unconditionally, the valid register is set to `valid_{s-1}`, and
`ready_s` is connected from constant 1. -/
theorem pipeline_stage_backpressure (numS : Nat)
    (dataRegs : Nat → List (String × Exp)) (s : Nat) (hs : s < numS) :
    (buildPipelineStructure numS dataRegs).get? s = some (
      Stmt.when (Exp.reg (RegId.validReg s))
        [ Stmt.when (Exp.prim PrimOp.andOp
              (if s + 1 = numS then Exp.wire WireId.readyIn
               else Exp.wire (WireId.readyW (s + 1)))
              (if s = 0 then Exp.wire WireId.validIn
               else Exp.reg (RegId.validReg (s - 1))))
            ((dataRegs s).map (fun p =>
              Stmt.connect (Exp.reg (RegId.dataReg p.1)) p.2)) [],
          Stmt.when (Exp.prim PrimOp.andOp
              (if s + 1 = numS then Exp.wire WireId.readyIn
               else Exp.wire (WireId.readyW (s + 1)))
              (Exp.notE (if s = 0 then Exp.wire WireId.validIn
               else Exp.reg (RegId.validReg (s - 1)))))
            [Stmt.connect (Exp.reg (RegId.validReg s)) (Exp.const 1 0)]
            [],
          Stmt.connect (Exp.wire (WireId.readyW s))
            (if s + 1 = numS then Exp.wire WireId.readyIn
             else Exp.wire (WireId.readyW (s + 1))) ]
        (((dataRegs s).map (fun p =>
            Stmt.connect (Exp.reg (RegId.dataReg p.1)) p.2)) ++
         [ Stmt.connect (Exp.reg (RegId.validReg s))
             (if s = 0 then Exp.wire WireId.validIn
              else Exp.reg (RegId.validReg (s - 1))),
           Stmt.connect (Exp.wire (WireId.readyW s)) (Exp.const 1 1) ])) := by
  have h1 : (buildPipelineStructure numS dataRegs).get? s =
      some (stageStmt numS dataRegs s) := by
    rw [buildPipelineStructure, List.get?_eq_getElem?, List.getElem?_map,
      List.getElem?_range hs]
    rfl
  rw [h1]
  have hrn : readyNext numS s =
      (if s + 1 = numS then Exp.wire WireId.readyIn
       else Exp.wire (WireId.readyW (s + 1))) := by
    rw [readyNext]
    by_cases hlast : s + 1 = numS
    · rw [if_pos (by omega : s = numS - 1), if_pos hlast]
    · rw [if_neg (by omega : ¬ s = numS - 1), if_neg hlast]
  rw [stageStmt, dataRegConnects, hrn, validPrev]

/-- C2 witness: stage 0 of a two-stage pipeline with one data
register. -/
theorem pipeline_stage_backpressure_witness :
    (buildPipelineStructure 2 (fun _ =>
        [("data0.0", Exp.portField 0 Field.data)])).get? 0 = some (
      Stmt.when (Exp.reg (RegId.validReg 0))
        [ Stmt.when (Exp.prim PrimOp.andOp
              (if 0 + 1 = 2 then Exp.wire WireId.readyIn
               else Exp.wire (WireId.readyW (0 + 1)))
              (if 0 = 0 then Exp.wire WireId.validIn
               else Exp.reg (RegId.validReg (0 - 1))))
            (((fun _ : Nat => [("data0.0", Exp.portField 0 Field.data)]) 0).map
              (fun p => Stmt.connect (Exp.reg (RegId.dataReg p.1)) p.2)) [],
          Stmt.when (Exp.prim PrimOp.andOp
              (if 0 + 1 = 2 then Exp.wire WireId.readyIn
               else Exp.wire (WireId.readyW (0 + 1)))
              (Exp.notE (if 0 = 0 then Exp.wire WireId.validIn
               else Exp.reg (RegId.validReg (0 - 1)))))
            [Stmt.connect (Exp.reg (RegId.validReg 0)) (Exp.const 1 0)]
            [],
          Stmt.connect (Exp.wire (WireId.readyW 0))
            (if 0 + 1 = 2 then Exp.wire WireId.readyIn
             else Exp.wire (WireId.readyW (0 + 1))) ]
        ((((fun _ : Nat => [("data0.0", Exp.portField 0 Field.data)]) 0).map
            (fun p => Stmt.connect (Exp.reg (RegId.dataReg p.1)) p.2)) ++
         [ Stmt.connect (Exp.reg (RegId.validReg 0))
             (if 0 = 0 then Exp.wire WireId.validIn
              else Exp.reg (RegId.validReg (0 - 1))),
           Stmt.connect (Exp.wire (WireId.readyW 0)) (Exp.const 1 1) ])) :=
  pipeline_stage_backpressure 2
    (fun _ => [("data0.0", Exp.portField 0 Field.data)]) 0 (by decide)

/-- `stmtsConnects` distributes over list append. -/
theorem stmtsConnects_append (l1 l2 : List Stmt) :
    stmtsConnects (l1 ++ l2) = stmtsConnects l1 ++ stmtsConnects l2 := by
  induction l1 with
  | nil => rfl
  | cons s rest ih => simp [stmtsConnects, ih]

/-- Connects of a mapped statement list. -/
theorem mem_stmtsConnects_map {α : Type} (f : α → Stmt) (l : List α)
    (c : Exp × Exp) :
    c ∈ stmtsConnects (l.map f) ↔ ∃ a ∈ l, c ∈ stmtConnects (f a) := by
  induction l with
  | nil => simp [stmtsConnects]
  | cons a rest ih => simp [stmtsConnects, ih]

/-- Connects of the data-register update block. -/
theorem stmtsConnects_dataRegConnects (pairs : List (String × Exp)) :
    stmtsConnects (dataRegConnects pairs) =
      pairs.map (fun p => (Exp.reg (RegId.dataReg p.1), p.2)) := by
  induction pairs with
  | nil => rfl
  | cons p rest ih =>
      simp [dataRegConnects, stmtsConnects, stmtConnects, ih] at ih ⊢

/-- All connects of one stage's back-pressure statement. -/
theorem stmtConnects_stageStmt (numS : Nat)
    (dataRegs : Nat → List (String × Exp)) (i : Nat) :
    stmtConnects (stageStmt numS dataRegs i) =
      (dataRegs i).map (fun p => (Exp.reg (RegId.dataReg p.1), p.2)) ++
      [(Exp.reg (RegId.validReg i), Exp.const 1 0),
       (Exp.wire (WireId.readyW i), readyNext numS i)] ++
      (dataRegs i).map (fun p => (Exp.reg (RegId.dataReg p.1), p.2)) ++
      [(Exp.reg (RegId.validReg i), validPrev i),
       (Exp.wire (WireId.readyW i), Exp.const 1 1)] := by
  simp [stageStmt, stmtConnects, stmtsConnects, stmtsConnects_append,
    stmtsConnects_dataRegConnects]

/-- `validPrev` never mentions a valid/ready port subfield. -/
theorem mentionsHandshakePort_validPrev (i : Nat) :
    mentionsHandshakePort (validPrev i) = false := by
  rw [validPrev]
  split <;> rfl

/-- `readyNext` never mentions a valid/ready port subfield. -/
theorem mentionsHandshakePort_readyNext (numS i : Nat) :
    mentionsHandshakePort (readyNext numS i) = false := by
  rw [readyNext]
  split <;> rfl

/-- C10: in every generated pipeline sub-module the boundary wires
`valid_in` and `ready_in` are never driven (no connect has them as
destination) and never connected to any port subfield, and the port
handshake subfields — the input channels' valid and ready signals and
the output channel's valid and ready — are wired to nothing: no connect
destination is a non-data port subfield, no connect source mentions a
valid/ready port subfield, and the sources of the port-data connects
(the return wiring) never mention the boundary wires;
`buildPipelineWrapper`, the function intended to wire the pipeline
boundary, has an empty body. -/
theorem pipeline_boundary_unwired (numS numIns : Nat)
    (dataRegs : Nat → List (String × Exp)) (outs : List Exp)
    (hregs : ∀ i, i < numS → ∀ p ∈ dataRegs i,
      mentionsBoundary p.2 = false ∧ mentionsHandshakePort p.2 = false)
    (houts : ∀ e ∈ outs, mentionsBoundary e = false ∧
      mentionsHandshakePort e = false) :
    buildPipelineWrapper = [] ∧
    ∀ c ∈ stmtsConnects (fullPipelineBody numS numIns dataRegs outs),
      c.1 ≠ Exp.wire WireId.validIn ∧
      c.1 ≠ Exp.wire WireId.readyIn ∧
      (∀ p f, f ≠ Field.data → c.1 ≠ Exp.portField p f) ∧
      mentionsHandshakePort c.2 = false ∧
      (∀ p, c.1 = Exp.portField p Field.data →
        mentionsBoundary c.2 = false) := by
  refine ⟨rfl, ?_⟩
  intro c hc
  rw [fullPipelineBody, buildPipelineWrapper, List.append_nil,
    stmtsConnects_append] at hc
  rcases List.mem_append.1 hc with hm | hm
  · rw [buildPipelineStructure,
      mem_stmtsConnects_map (stageStmt numS dataRegs)] at hm
    obtain ⟨i, hi, hmem⟩ := hm
    have hiS : i < numS := List.mem_range.1 hi
    rw [stmtConnects_stageStmt] at hmem
    simp only [List.mem_append, List.mem_map, List.mem_cons,
      List.mem_singleton, List.not_mem_nil, or_false] at hmem
    rcases hmem with ((⟨p, hp, rfl⟩ | (rfl | rfl)) | ⟨p, hp, rfl⟩) |
      (rfl | rfl)
    · exact ⟨by simp, by simp, by intro p f hf; simp,
        (hregs i hiS p hp).2, by intro q h; cases h⟩
    · exact ⟨by simp, by simp, by intro p f hf; simp, rfl,
        by intro q h; cases h⟩
    · exact ⟨by simp, by simp, by intro p f hf; simp,
        mentionsHandshakePort_readyNext numS i, by intro q h; cases h⟩
    · exact ⟨by simp, by simp, by intro p f hf; simp,
        (hregs i hiS p hp).2, by intro q h; cases h⟩
    · exact ⟨by simp, by simp, by intro p f hf; simp,
        mentionsHandshakePort_validPrev i, by intro q h; cases h⟩
    · exact ⟨by simp, by simp, by intro p f hf; simp, rfl,
        by intro q h; cases h⟩
  · rw [pipelineReturnWiring, mem_stmtsConnects_map] at hm
    obtain ⟨⟨j, e⟩, hje, hmem⟩ := hm
    have he : e ∈ outs := (List.of_mem_zip hje).2
    simp only [stmtConnects, List.mem_singleton] at hmem
    subst hmem
    refine ⟨by simp, by simp, ?_, (houts e he).2, ?_⟩
    · intro p f hf heq
      injection heq with h1 h2
      exact hf h2.symm
    · intro p _
      exact (houts e he).1

/-- C10 witness: a one-stage pipeline with one input, one data register
and one returned value. -/
theorem pipeline_boundary_unwired_witness :
    buildPipelineWrapper = [] ∧
    ∀ c ∈ stmtsConnects (fullPipelineBody 1 1
        (fun _ => [("data0.0", Exp.portField 0 Field.data)])
        [Exp.reg (RegId.dataReg "data0.0")]),
      c.1 ≠ Exp.wire WireId.validIn ∧
      c.1 ≠ Exp.wire WireId.readyIn ∧
      (∀ p f, f ≠ Field.data → c.1 ≠ Exp.portField p f) ∧
      mentionsHandshakePort c.2 = false ∧
      (∀ p, c.1 = Exp.portField p Field.data →
        mentionsBoundary c.2 = false) :=
  pipeline_boundary_unwired 1 1
    (fun _ => [("data0.0", Exp.portField 0 Field.data)])
    [Exp.reg (RegId.dataReg "data0.0")]
    (by intro i _ p hp
        simp only [List.mem_singleton] at hp
        subst hp
        exact ⟨rfl, rfl⟩)
    (by intro e he
        simp only [List.mem_singleton] at he
        subst he
        exact ⟨rfl, rfl⟩)

end HandshakeToFIRRTL
